import Mathlib

set_option maxRecDepth 100000
set_option maxHeartbeats 2000000

/-!
Verification development for the log-monitoring-alert-system repository.

The embedding works over code points: a text is a `List Nat` of Unicode
code points (`str` converts a Lean string literal).  Regular expressions
from `src/patterns.py` and `src/log_parser.py` are hand-compiled into a
small abstract-syntax type `RE`; `mtch` is a backtracking matcher that
returns the list of possible match results in the backtracking priority
order used by Python's `re` module (greedy repetition tries longer
matches first, alternation is left-to-right), so `re.match` is the head
of the result list at position 0, `re.search` asks for a match at the
leftmost possible position, and `re.findall` repeatedly takes the
leftmost match and continues after it.  The matcher is driven by a fuel
parameter so that all definitions are structurally recursive and
kernel-reducible; star bodies are required to consume at least one
character per iteration (as in Python's engine, which never loops on an
empty repetition), so the generous fuel chosen in `fuelFor` is never
exhausted.
-/

namespace LogMon

/-- A text as a list of Unicode code points. -/
abbrev Str := List Nat

/-- Convert a Lean string to its list of code points. -/
def str (s : String) : Str := s.data.map Char.toNat

/-- ASCII lower-casing of a code point, the case folding performed by
`re.IGNORECASE` on the ASCII patterns of this repository. -/
def lowerN (n : Nat) : Nat := if 65 ≤ n ∧ n ≤ 90 then n + 32 else n

/-- Lower-case every code point of a text. -/
def lcL (s : Str) : Str := s.map lowerN

/-- `\d` : ASCII digit. -/
def isDigitN (n : Nat) : Bool := decide (48 ≤ n ∧ n ≤ 57)

/-- `\s` : ASCII whitespace as matched by Python's `\s`. -/
def isSpaceN (n : Nat) : Bool :=
  decide (n = 32 ∨ n = 9 ∨ n = 10 ∨ n = 13 ∨ n = 11 ∨ n = 12)

/-- `\w` : word character `[a-zA-Z0-9_]`. -/
def isWordN (n : Nat) : Bool :=
  decide ((97 ≤ n ∧ n ≤ 122) ∨ (65 ≤ n ∧ n ≤ 90) ∨ (48 ≤ n ∧ n ≤ 57) ∨ n = 95)

/-- `[\d.]` : digit or dot. -/
def isDigitDotN (n : Nat) : Bool := isDigitN n || decide (n = 46)

/-- Regular-expression abstract syntax: the constructs used by the
patterns of this repository.  `star true` is lazy (`*?`), `star false`
is greedy (`*`). -/
inductive RE where
  | eps : RE
  | pred : (Nat → Bool) → RE
  | seq : RE → RE → RE
  | alt : RE → RE → RE
  | star : Bool → RE → RE
  | group : Nat → RE → RE
  | wordB : RE

/-- One match result: the reversed consumed prefix (`left`), the
remaining suffix (`rest`), and the captured groups. -/
structure MRes where
  left : Str
  rest : Str
  caps : List (Nat × Str)
  deriving DecidableEq

/-- Is an optional code point a word character (absent counts as no)? -/
def optWord : Option Nat → Bool
  | none => false
  | some c => isWordN c

/-- The backtracking matcher.  `mtch fuel r left rest` returns every way
`r` can match a prefix of `rest` (with `left` the reversed text before
the current position, needed for `\b`), in backtracking priority order. -/
def mtch : Nat → RE → Str → Str → List MRes
  | 0, _, _, _ => []
  | Nat.succ _, RE.eps, left, rest => [⟨left, rest, []⟩]
  | Nat.succ _, RE.pred p, left, rest =>
      match rest with
      | [] => []
      | c :: cs => if p c then [⟨c :: left, cs, []⟩] else []
  | Nat.succ n, RE.seq a b, left, rest =>
      (mtch n a left rest).flatMap (fun x =>
        (mtch n b x.left x.rest).map (fun y => ⟨y.left, y.rest, x.caps ++ y.caps⟩))
  | Nat.succ n, RE.alt a b, left, rest =>
      mtch n a left rest ++ mtch n b left rest
  | Nat.succ n, RE.star lz a, left, rest =>
      let stop : List MRes := [⟨left, rest, []⟩]
      let go := ((mtch n a left rest).filter
          (fun x => decide (x.rest.length < rest.length))).flatMap
        (fun x => (mtch n (RE.star lz a) x.left x.rest).map
          (fun y => ⟨y.left, y.rest, x.caps ++ y.caps⟩))
      if lz then stop ++ go else go ++ stop
  | Nat.succ n, RE.group i a, left, rest =>
      (mtch n a left rest).map (fun x =>
        ⟨x.left, x.rest, (i, (x.left.take (x.left.length - left.length)).reverse) :: x.caps⟩)
  | Nat.succ _, RE.wordB, left, rest =>
      if optWord left.head? = optWord rest.head? then [] else [⟨left, rest, []⟩]

/-- Syntactic size of a regular expression, used for the fuel bound. -/
def sizeRE : RE → Nat
  | RE.eps => 1
  | RE.pred _ => 1
  | RE.seq a b => sizeRE a + sizeRE b + 1
  | RE.alt a b => sizeRE a + sizeRE b + 1
  | RE.star _ a => sizeRE a + 1
  | RE.group _ a => sizeRE a + 1
  | RE.wordB => 1

/-- Fuel that the matcher can never exhaust on the given input: every
recursive call either shrinks the expression or (for a star iteration)
strictly consumes input. -/
def fuelFor (r : RE) (s : Str) : Nat := (sizeRE r + 1) * (s.length + 1)

/-- Python `re.match`: the first (highest-priority) match anchored at the
start of the text. -/
def reMatch (r : RE) (s : Str) : Option MRes := (mtch (fuelFor r s) r [] s).head?

/-- Try to match at the current position or at any later one. -/
def searchFrom (fuel : Nat) (r : RE) : Str → Str → Bool
  | left, [] => !(mtch fuel r left []).isEmpty
  | left, c :: cs =>
      !(mtch fuel r left (c :: cs)).isEmpty || searchFrom fuel r (c :: left) cs

/-- Python `re.search` as a Boolean: does the pattern match anywhere? -/
def research (r : RE) (s : Str) : Bool := searchFrom (fuelFor r s) r [] s

/-- Leftmost match from the current position: returns the matched text,
the new reversed left context and the remaining suffix. -/
def findFrom (fuel : Nat) (r : RE) : Str → Str → Option (Str × Str × Str)
  | left, [] =>
      match (mtch fuel r left []).head? with
      | some x => some ((x.left.take (x.left.length - left.length)).reverse, x.left, x.rest)
      | none => none
  | left, c :: cs =>
      match (mtch fuel r left (c :: cs)).head? with
      | some x => some ((x.left.take (x.left.length - left.length)).reverse, x.left, x.rest)
      | none => findFrom fuel r (c :: left) cs

/-- Worker for `findall`, with a step bound. -/
def findallGo (fuel : Nat) (r : RE) : Nat → Str → Str → List Str
  | 0, _, _ => []
  | Nat.succ n, left, rest =>
      match findFrom fuel r left rest with
      | none => []
      | some (txt, left2, rest2) =>
          if txt.isEmpty then
            match rest2 with
            | [] => [txt]
            | c :: cs => txt :: findallGo fuel r n (c :: left2) cs
          else txt :: findallGo fuel r n left2 rest2

/-- Python `re.findall`: non-overlapping leftmost matches, left to right. -/
def findall (r : RE) (s : Str) : List Str :=
  findallGo (fuelFor r s) r (s.length + 1) [] s

/-! Pattern building blocks. -/

/-- Case-sensitive literal code point. -/
def chC (k : Nat) : RE := RE.pred (fun n => decide (n = k))

/-- Case-insensitive literal code point (under `(?i)`). -/
def chI (k : Nat) : RE := RE.pred (fun n => decide (lowerN n = lowerN k))

/-- Sequence of a list of expressions. -/
def rSeq (l : List RE) : RE := l.foldr RE.seq RE.eps

/-- Left-to-right alternation of a non-empty list of branches. -/
def altN : List RE → RE
  | [] => RE.pred (fun _ => false)
  | [r] => r
  | r :: rs => RE.alt r (altN rs)

/-- Case-sensitive literal string. -/
def litC (s : String) : RE := rSeq ((str s).map chC)

/-- Case-insensitive literal string. -/
def litI (s : String) : RE := rSeq ((str s).map chI)

def rDigit : RE := RE.pred isDigitN
def rSpace : RE := RE.pred isSpaceN
def rWord : RE := RE.pred isWordN
def rNonSpace : RE := RE.pred (fun n => !isSpaceN n)
def rNotNl : RE := RE.pred (fun n => decide (n ≠ 10))
def rNotGt : RE := RE.pred (fun n => decide (n ≠ 62))
def rDigitDot : RE := RE.pred isDigitDotN

/-- Greedy `r+`. -/
def rPlus (r : RE) : RE := RE.seq r (RE.star false r)

/-- Greedy `r?`. -/
def qmark (r : RE) : RE := RE.alt r RE.eps

/-- Greedy `.*`. -/
def dotStar : RE := RE.star false rNotNl

/-- Greedy `.+`. -/
def dotPlus : RE := rPlus rNotNl

/-- `r` repeated exactly `k` times. -/
def repN (k : Nat) (r : RE) : RE := rSeq (List.replicate k r)

/-! The security-pattern catalog of `src/patterns.py`, each regex
hand-compiled to `RE` next to its source string (single quotes written
as the escape \x27, same string value). -/

/-- A catalog rule: the source regex string and its compiled form. -/
structure Rule where
  pat : String
  rex : RE

/-- A rule is case-insensitive iff its source string carries the
`(?i)` inline flag. -/
def Rule.ci (r : Rule) : Bool := decide ((str r.pat).take 4 = str "(?i)")

def rule_fl1 : Rule :=
  ⟨"Failed password for .+ from ([\\d.]+)",
   rSeq [litC "Failed password for ", dotPlus, litC " from ", RE.group 1 (rPlus rDigitDot)]⟩

def rule_fl2 : Rule :=
  ⟨"authentication failure.*rhost=([\\d.]+)",
   rSeq [litC "authentication failure", dotStar, litC "rhost=", RE.group 1 (rPlus rDigitDot)]⟩

def rule_fl3 : Rule :=
  ⟨"Invalid user .+ from ([\\d.]+)",
   rSeq [litC "Invalid user ", dotPlus, litC " from ", RE.group 1 (rPlus rDigitDot)]⟩

def rule_fl4 : Rule :=
  ⟨"Failed login attempt.*from ([\\d.]+)",
   rSeq [litC "Failed login attempt", dotStar, litC "from ", RE.group 1 (rPlus rDigitDot)]⟩

def rule_fl5 : Rule :=
  ⟨"FAILED LOGIN.*FROM ([\\d.]+)",
   rSeq [litC "FAILED LOGIN", dotStar, litC "FROM ", RE.group 1 (rPlus rDigitDot)]⟩

def rule_sql1 : Rule :=
  ⟨"(?i)(union.*select|select.*from.*where|drop.*table|insert.*into|delete.*from)",
   RE.group 1 (altN
     [rSeq [litI "union", dotStar, litI "select"],
      rSeq [litI "select", dotStar, litI "from", dotStar, litI "where"],
      rSeq [litI "drop", dotStar, litI "table"],
      rSeq [litI "insert", dotStar, litI "into"],
      rSeq [litI "delete", dotStar, litI "from"]])⟩

def rule_sql2 : Rule :=
  ⟨"(?i)(\x27.*or.*\x27.*=.*\x27|\x27.*or.*1.*=.*1)",
   RE.group 1 (altN
     [rSeq [litI "\x27", dotStar, litI "or", dotStar, litI "\x27", dotStar,
            litI "=", dotStar, litI "\x27"],
      rSeq [litI "\x27", dotStar, litI "or", dotStar, litI "1", dotStar,
            litI "=", dotStar, litI "1"]])⟩

def rule_sql3 : Rule :=
  ⟨"(?i)(exec.*xp_|execute.*sp_|\x27;.*--)",
   RE.group 1 (altN
     [rSeq [litI "exec", dotStar, litI "xp_"],
      rSeq [litI "execute", dotStar, litI "sp_"],
      rSeq [litI "\x27;", dotStar, litI "--"]])⟩

def rule_sql4 : Rule :=
  ⟨"(?i)(char.*\\(|concat.*\\(|load_file)",
   RE.group 1 (altN
     [rSeq [litI "char", dotStar, litI "("],
      rSeq [litI "concat", dotStar, litI "("],
      litI "load_file"])⟩

def rule_xss1 : Rule :=
  ⟨"(?i)<script[^>]*>.*?</script>",
   rSeq [litI "<script", RE.star false rNotGt, litI ">", RE.star true rNotNl,
         litI "</script>"]⟩

def rule_xss2 : Rule := ⟨"(?i)javascript:", litI "javascript:"⟩

def rule_xss3 : Rule :=
  ⟨"(?i)onerror\\s*=", rSeq [litI "onerror", RE.star false rSpace, litI "="]⟩

def rule_xss4 : Rule :=
  ⟨"(?i)onload\\s*=", rSeq [litI "onload", RE.star false rSpace, litI "="]⟩

def rule_xss5 : Rule :=
  ⟨"(?i)<iframe[^>]*>", rSeq [litI "<iframe", RE.star false rNotGt, litI ">"]⟩

def rule_dt1 : Rule := ⟨"\\.\\./", litC "../"⟩

def rule_dt2 : Rule := ⟨"\\.\\.\\\\", litC "..\\"⟩

def rule_dt3 : Rule := ⟨"%2e%2e/", litC "%2e%2e/"⟩

def rule_dt4 : Rule := ⟨"\\.\\.%2f", litC "..%2f"⟩

def rule_ua1 : Rule := ⟨"(?i)access denied", litI "access denied"⟩

def rule_ua2 : Rule := ⟨"(?i)unauthorized access", litI "unauthorized access"⟩

def rule_ua3 : Rule := ⟨"(?i)permission denied", litI "permission denied"⟩

def rule_ua4 : Rule := ⟨"(?i)403 Forbidden", litI "403 Forbidden"⟩

def rule_ua5 : Rule := ⟨"(?i)401 Unauthorized", litI "401 Unauthorized"⟩

def rule_ps1 : Rule :=
  ⟨"SYN.*scan.*detected",
   rSeq [litC "SYN", dotStar, litC "scan", dotStar, litC "detected"]⟩

def rule_ps2 : Rule :=
  ⟨"Port\\s+scan.*from\\s+([\\d.]+)",
   rSeq [litC "Port", rPlus rSpace, litC "scan", dotStar, litC "from",
         rPlus rSpace, RE.group 1 (rPlus rDigitDot)]⟩

def rule_ps3 : Rule :=
  ⟨"Multiple connection attempts.*from\\s+([\\d.]+)",
   rSeq [litC "Multiple connection attempts", dotStar, litC "from",
         rPlus rSpace, RE.group 1 (rPlus rDigitDot)]⟩

def rule_pe1 : Rule :=
  ⟨"(?i)sudo.*su\\s+root",
   rSeq [litI "sudo", dotStar, litI "su", rPlus rSpace, litI "root"]⟩

def rule_pe2 : Rule :=
  ⟨"(?i)privilege.*escalation",
   rSeq [litI "privilege", dotStar, litI "escalation"]⟩

def rule_pe3 : Rule :=
  ⟨"(?i)root.*access.*granted",
   rSeq [litI "root", dotStar, litI "access", dotStar, litI "granted"]⟩

def rule_pe4 : Rule :=
  ⟨"su:\\s+authentication\\s+failure",
   rSeq [litC "su:", rPlus rSpace, litC "authentication", rPlus rSpace,
         litC "failure"]⟩

def FAILED_LOGIN_PATTERNS : List Rule := [rule_fl1, rule_fl2, rule_fl3, rule_fl4, rule_fl5]
def SQL_INJECTION_PATTERNS : List Rule := [rule_sql1, rule_sql2, rule_sql3, rule_sql4]
def XSS_PATTERNS : List Rule := [rule_xss1, rule_xss2, rule_xss3, rule_xss4, rule_xss5]
def DIRECTORY_TRAVERSAL_PATTERNS : List Rule := [rule_dt1, rule_dt2, rule_dt3, rule_dt4]
def UNAUTHORIZED_ACCESS_PATTERNS : List Rule := [rule_ua1, rule_ua2, rule_ua3, rule_ua4, rule_ua5]
def PORT_SCAN_PATTERNS : List Rule := [rule_ps1, rule_ps2, rule_ps3]
def PRIVILEGE_ESCALATION_PATTERNS : List Rule := [rule_pe1, rule_pe2, rule_pe3, rule_pe4]

/-- `SecurityPatterns.get_all_patterns`: the ordered catalog mapping each
threat type to its rule list. -/
def get_all_patterns : List (String × List Rule) :=
  [("Failed Login Attempts", FAILED_LOGIN_PATTERNS),
   ("SQL Injection", SQL_INJECTION_PATTERNS),
   ("Cross-Site Scripting (XSS)", XSS_PATTERNS),
   ("Directory Traversal", DIRECTORY_TRAVERSAL_PATTERNS),
   ("Unauthorized Access", UNAUTHORIZED_ACCESS_PATTERNS),
   ("Port Scanning", PORT_SCAN_PATTERNS),
   ("Privilege Escalation", PRIVILEGE_ESCALATION_PATTERNS)]

/-- `SecurityPatterns.check_patterns`: collect `(threat_type, pattern)`
for every rule whose regex is found in the line, in catalog order. -/
def check_patterns (line : Str) : List (String × String) :=
  get_all_patterns.foldl (fun acc c =>
    c.2.foldl (fun acc2 r =>
      if research r.rex line then acc2 ++ [(c.1, r.pat)] else acc2) acc) []

/-- The catalog flattened to `(threat_type, rule)` pairs in scan order. -/
def flatRules : List (String × Rule) :=
  get_all_patterns.flatMap (fun c => c.2.map (fun r => (c.1, r)))

/-- The IPv4 extraction pattern of `LogParser.analyze_log_entry`:
`\b(?:\d⁎.){3}\d⁎\b` with each `\d⁎` a run of one to three digits. -/
def d13 : RE := rSeq [rDigit, qmark rDigit, qmark rDigit]

def ipRE : RE :=
  rSeq [RE.wordB, d13, chC 46, d13, chC 46, d13, chC 46, d13, RE.wordB]

/-! The entry parser of `src/log_parser.py`. -/

/-- The three log-format grammars tried by `LogParser.parse_log_line`,
in priority order. -/
def syslog_re : RE :=
  rSeq [RE.group 1 (rSeq [rPlus rWord, rPlus rSpace, rPlus rDigit, rPlus rSpace,
          rPlus rDigit, chC 58, rPlus rDigit, chC 58, rPlus rDigit]),
        rPlus rSpace, rPlus rNonSpace, rPlus rSpace, RE.group 2 (rPlus rWord),
        qmark (rSeq [chC 91, rPlus rDigit, chC 93]), litC ": ", RE.group 3 dotPlus]

def iso_re : RE :=
  rSeq [RE.group 1 (rSeq [repN 4 rDigit, chC 45, repN 2 rDigit, chC 45, repN 2 rDigit,
          chC 84, repN 2 rDigit, chC 58, repN 2 rDigit, chC 58, repN 2 rDigit,
          qmark (chC 90)]),
        rPlus rSpace, chC 91, RE.group 2 (rPlus rWord), chC 93, rPlus rSpace,
        RE.group 3 dotPlus]

def simple_re : RE :=
  rSeq [chC 91, RE.group 1 (rSeq [repN 4 rDigit, chC 45, repN 2 rDigit, chC 45,
          repN 2 rDigit, rPlus rSpace, repN 2 rDigit, chC 58, repN 2 rDigit,
          chC 58, repN 2 rDigit]),
        chC 93, rPlus rSpace, RE.group 2 (rPlus rWord), chC 58, rPlus rSpace,
        RE.group 3 dotPlus]

/-- A parsed log entry (`LogEntry` in `src/log_parser.py`): timestamp
text, level, message, the raw line, and the accumulated threat matches
`(threat_type, pattern)`. -/
structure LogEntry where
  timestamp : Str
  level : Str
  message : Str
  raw_line : Str
  threats : List (String × String)
  deriving DecidableEq

/-- `LogEntry.is_suspicious`: the threat list is non-empty. -/
def LogEntry.is_suspicious (e : LogEntry) : Bool := decide (0 < e.threats.length)

/-- Extract a captured group from a match result (empty if absent,
which never happens for the grammars above). -/
def gget (caps : List (Nat × Str)) (i : Nat) : Str :=
  ((caps.find? (fun c => decide (c.1 = i))).map Prod.snd).getD []

/-- `LogParser.parse_log_line`.  The wall clock read by `datetime.now`
in the fallback branch is the explicit argument `now`. -/
def parse_log_line (line : Str) (now : Str) : Option LogEntry :=
  match reMatch syslog_re line with
  | some m => some ⟨gget m.caps 1, gget m.caps 2, gget m.caps 3, line, []⟩
  | none =>
    match reMatch iso_re line with
    | some m => some ⟨gget m.caps 1, gget m.caps 2, gget m.caps 3, line, []⟩
    | none =>
      match reMatch simple_re line with
      | some m => some ⟨gget m.caps 1, gget m.caps 2, gget m.caps 3, line, []⟩
      | none => some ⟨now, str "UNKNOWN", line, line, []⟩

/-! The statistics aggregator state of `LogParser` (`threat_counts` and
`suspicious_ips` are insertion-ordered `defaultdict(int)` maps, embedded
as association lists in insertion order). -/

structure ParserState where
  threat_counts : List (String × Nat)
  suspicious_ips : List (Str × Nat)

/-- `defaultdict(int)` increment: `m[k] += 1` bumps the entry in place
or appends a fresh key with count 1 (insertion order preserved). -/
def bump {α : Type} [DecidableEq α] : List (α × Nat) → α → List (α × Nat)
  | [], k => [(k, 1)]
  | q :: rest, k =>
      if q.1 = k then (q.1, q.2 + 1) :: rest else q :: bump rest k

/-- Lookup of a counter, 0 when the key is absent. -/
def lookupD {α : Type} [DecidableEq α] (m : List (α × Nat)) (k : α) : Nat :=
  ((m.find? (fun q => decide (q.1 = k))).map Prod.snd).getD 0

/-- `LogParser.analyze_log_entry`: run the catalog over the raw line,
append the matches to the entry's threats and count them per type; then
find every IPv4-shaped substring of the raw line and, if the entry is
suspicious, count each occurrence against its address. -/
def analyze_log_entry (st : ParserState) (e : LogEntry) : ParserState × LogEntry :=
  let found := check_patterns e.raw_line
  let e2 : LogEntry := { e with threats := e.threats ++ found }
  let tc := found.foldl (fun m t => bump m t.1) st.threat_counts
  let ips := findall ipRE e.raw_line
  let si := ips.foldl (fun m ip => if e2.is_suspicious then bump m ip else m)
    st.suspicious_ips
  (⟨tc, si⟩, e2)

/-- `total_threats` of `LogParser.get_statistics`: the sum of the
per-type counters. -/
def total_threats (st : ParserState) : Nat := (st.threat_counts.map Prod.snd).sum

/-- The descending-by-count ordering used by
`sorted(..., key=lambda x: x[1], reverse=True)`; Python's sort is
stable, so `List.insertionSort` with this relation produces the same
list. -/
def ipGE (a b : Str × Nat) : Prop := b.2 ≤ a.2

instance : DecidableRel ipGE := fun a b => Nat.decLe b.2 a.2

/-- The sorted suspicious-ip ranking before truncation. -/
def sorted_ips (st : ParserState) : List (Str × Nat) :=
  List.insertionSort ipGE st.suspicious_ips

/-- `top_suspicious_ips` of `LogParser.get_statistics`: the ten largest
counters, count-descending, stable. -/
def top_suspicious_ips (st : ParserState) : List (Str × Nat) :=
  (sorted_ips st).take 10

/-! The monitoring loop of `src/monitor.py`. -/

/-- Python `str.strip`: drop ASCII whitespace from both ends. -/
def strip (s : Str) : Str :=
  ((s.dropWhile isSpaceN).reverse.dropWhile isSpaceN).reverse

/-- `f.readlines()`: split after every newline, keeping the newline,
with a final fragment without one. -/
def readlinesGo (acc : Str) : Str → List Str
  | [] => if acc.isEmpty then [] else [acc.reverse]
  | c :: cs =>
      if c = 10 then (acc.reverse ++ [10]) :: readlinesGo [] cs
      else readlinesGo (c :: acc) cs

/-- The tail-read step of `LogMonitor.check_new_logs` (lines 74-87):
given the current file content and the tracked offset, return the newly
read lines and the updated offset.  If the file has not grown past the
offset — including when it shrank — nothing is read and the offset is
kept. -/
def check_new_logs_read (content : Str) (last_position : Nat) : List Str × Nat :=
  if content.length ≤ last_position then ([], last_position)
  else (readlinesGo [] (content.drop last_position), content.length)

/-- The per-line processing of `LogMonitor.check_new_logs` (lines
96-104): parse, analyze, then let the ML detector add an extra threat.
`mlHit line` abstracts `enable_ml and ml_detector.is_trained and
is_anomaly and score > 0.5` (the sklearn scorer is an external
collaborator); `mlTag` abstracts the formatted score text. -/
def monitor_process_line (mlHit : Str → Bool) (mlTag : String) (now : Str)
    (st : ParserState) (line : Str) : ParserState × Option LogEntry :=
  match parse_log_line line now with
  | none => (st, none)
  | some e =>
      let p := analyze_log_entry st e
      let e2 := if mlHit line then
          { p.2 with threats := p.2.threats ++ [("ML Anomaly Detection", mlTag)] }
        else p.2
      (p.1, some e2)

/-- The line loop of `LogMonitor.check_new_logs` (lines 91-113): strip
each line, skip blanks, process the rest in order; returns the final
aggregator state and the processed entries in file order. -/
def monitor_process (mlHit : Str → Bool) (mlTag : String) (now : Str) :
    ParserState → List Str → ParserState × List LogEntry
  | st, [] => (st, [])
  | st, l :: ls =>
      let l2 := strip l
      if l2.isEmpty then monitor_process mlHit mlTag now st ls
      else
        match monitor_process_line mlHit mlTag now st l2 with
        | (st2, none) => monitor_process mlHit mlTag now st2 ls
        | (st2, some e) =>
            let rec2 := monitor_process mlHit mlTag now st2 ls
            (rec2.1, e :: rec2.2)

/-! Configuration loading (`AlertSystem._load_config` in
`src/alert_system.py` and `LogMonitor._load_config` in
`src/monitor.py`).  File access and JSON decoding are the boundary: a
configuration source either is missing, holds invalid JSON, or yields a
parsed monitoring section. -/

structure MonConfig where
  enable_email_alerts : Bool
  alert_threshold : Nat
  deriving DecidableEq

/-- The `monitoring` section of `AlertSystem._get_default_config`. -/
def default_monitoring_config : MonConfig := ⟨false, 5⟩

inductive ConfigSource where
  | missing
  | invalidJson
  | valid (monitoring : MonConfig)

/-- `AlertSystem._load_config`: missing file or bad JSON degrade to the
default configuration. -/
def alert_load_config : ConfigSource → MonConfig
  | ConfigSource.missing => default_monitoring_config
  | ConfigSource.invalidJson => default_monitoring_config
  | ConfigSource.valid m => m

inductive MonitorLoadResult where
  | ok (monitoring : MonConfig)
  | exitProcess (code : Nat)
  deriving DecidableEq

/-- `LogMonitor._load_config`: missing file or bad JSON print an error
and call `sys.exit(1)`. -/
def monitor_load_config : ConfigSource → MonitorLoadResult
  | ConfigSource.missing => MonitorLoadResult.exitProcess 1
  | ConfigSource.invalidJson => MonitorLoadResult.exitProcess 1
  | ConfigSource.valid m => MonitorLoadResult.ok m

/-! The alert dispatch evaluations.  Both are modelled up to the
delivery boundary: the returned value is `some` of the constructed
alert artefact when the evaluation decides to build and dispatch an
alert, `none` when it bails out before building one. -/

/-- The gating of `AlertSystem.send_threat_alert` (lines 137-149):
nothing on an empty batch, nothing below the configured threshold,
otherwise the alert subject is built and handed to `send_alert`. -/
def send_threat_alert (entries : List LogEntry) (total : Nat) (threshold : Nat) :
    Option String :=
  if entries.isEmpty then none
  else if total < threshold then none
  else some (toString total ++ " Security Threats Detected")

/-- The severity derivation of `WebhookNotifier.send_threat_alert_slack`
(line 122). -/
def slackSeverity (threat_count : Nat) : String :=
  if threat_count > 20 then "critical"
  else if threat_count > 10 then "error"
  else "warning"

/-- The gating of `WebhookNotifier.send_threat_alert_slack` (lines
94-124): nothing on an empty batch, otherwise the message is built and
sent with the derived severity — there is no threshold comparison. -/
def send_threat_alert_slack (entries : List LogEntry) (total : Nat) :
    Option String :=
  if entries.isEmpty then none
  else some (slackSeverity total)

/-! Helper lemmas. -/

theorem foldl_rules_filter (line : Str) (cat : String) (rules : List Rule)
    (acc : List (String × String)) :
    rules.foldl (fun acc2 r =>
        if research r.rex line then acc2 ++ [(cat, r.pat)] else acc2) acc
      = acc ++ (rules.filter (fun r => research r.rex line)).map
          (fun r => (cat, r.pat)) := by
  induction rules generalizing acc with
  | nil => simp
  | cons r rs ih =>
      by_cases h : research r.rex line
      · simp [List.filter_cons, h, ih, List.append_assoc]
      · simp [List.filter_cons, h, ih]

theorem foldl_cats_filter (line : Str) (cats : List (String × List Rule))
    (acc : List (String × String)) :
    cats.foldl (fun a c =>
        c.2.foldl (fun acc2 r =>
          if research r.rex line then acc2 ++ [(c.1, r.pat)] else acc2) a) acc
      = acc ++ ((cats.flatMap (fun c => c.2.map (fun r => (c.1, r)))).filter
          (fun cr => research cr.2.rex line)).map (fun cr => (cr.1, cr.2.pat)) := by
  induction cats generalizing acc with
  | nil => simp
  | cons c cs ih =>
      simp only [List.foldl_cons]
      rw [foldl_rules_filter, ih, List.flatMap_cons, List.filter_append,
        List.map_append, List.append_assoc, List.filter_map, List.map_map]
      rfl

/-- `check_patterns` collects exactly the catalog pairs whose regex
matches, in catalog order. -/
theorem check_patterns_eq_filter (line : Str) :
    check_patterns line
      = (flatRules.filter (fun cr => research cr.2.rex line)).map
          (fun cr => (cr.1, cr.2.pat)) := by
  unfold check_patterns flatRules
  exact (foldl_cats_filter line get_all_patterns []).trans (by rw [List.nil_append])

/-- C10: for every input line, classification emits each
`(category, rule)` pair at most once — the returned match list has no
duplicate pairs and its length is bounded by the 30 rules of the
catalog. -/
theorem c10_no_duplicate_matches (line : Str) :
    (check_patterns line).Nodup ∧ (check_patterns line).length ≤ 30 := by
  rw [check_patterns_eq_filter]
  constructor
  · have hsub : ((flatRules.filter (fun cr => research cr.2.rex line)).map
        (fun cr => (cr.1, cr.2.pat))).Sublist
          (flatRules.map (fun cr => (cr.1, cr.2.pat))) :=
      List.Sublist.map _ (List.filter_sublist _)
    exact List.Nodup.sublist hsub (by decide)
  · calc ((flatRules.filter (fun cr => research cr.2.rex line)).map
          (fun cr => (cr.1, cr.2.pat))).length
        = (flatRules.filter (fun cr => research cr.2.rex line)).length := by
          rw [List.length_map]
      _ ≤ flatRules.length := List.length_filter_le _ _
      _ ≤ 30 := by decide

/-- C1 (amended): when the monitored file's current size is less than
or equal to the tracked offset — in particular after a shrink — the
tail-read step returns no lines and leaves the offset unchanged: the
offset is not reset to 0 and the new content is not re-read. -/
theorem c1_no_rotation_reset (content : Str) (pos : Nat)
    (h : content.length ≤ pos) :
    check_new_logs_read content pos = ([], pos) := by
  unfold check_new_logs_read
  simp [h]

theorem c1_no_rotation_reset_witness :
    (str "ab").length ≤ 5 ∧ check_new_logs_read (str "ab") 5 = ([], 5) :=
  ⟨by decide, c1_no_rotation_reset (str "ab") 5 (by decide)⟩

/-- C1 counterexample: a file that held at least 500 bytes (offset 500)
is truncated and rewritten with a 22-byte line; the next poll returns
no lines and keeps offset 500 — not the rewritten content's lines from
byte 0 claimed by the spec. -/
theorem c1_counterexample :
    check_new_logs_read (str "new line after rotate\n") 500 = ([], 500) ∧
    (str "new line after rotate\n").length < 500 ∧
    readlinesGo [] (str "new line after rotate\n") ≠ [] := by
  refine ⟨by decide, by decide, by decide⟩

/-- C5 (amended): the Slack severity is `warning` for a cumulative
total of at most 10, `error` for 11 through 20, and `critical` above
20 (the boundary value 10 yields `warning`, not `error`). -/
theorem c5_severity_bands (n : Nat) :
    (n ≤ 10 → slackSeverity n = "warning") ∧
    (11 ≤ n ∧ n ≤ 20 → slackSeverity n = "error") ∧
    (21 ≤ n → slackSeverity n = "critical") := by
  unfold slackSeverity
  refine ⟨fun h => ?_, fun h => ?_, fun h => ?_⟩
  · split_ifs with h1 h2
    · exact absurd h1 (by omega)
    · exact absurd h2 (by omega)
    · rfl
  · split_ifs with h1 h2
    · exact absurd h1 (by omega)
    · rfl
    · exact absurd h (by omega)
  · split_ifs with h1 h2
    · rfl
    · exact absurd h1 (by omega)
    · exact absurd h1 (by omega)

theorem c5_severity_bands_witness :
    slackSeverity 9 = "warning" ∧ slackSeverity 15 = "error" ∧
    slackSeverity 25 = "critical" :=
  ⟨(c5_severity_bands 9).1 (by decide), (c5_severity_bands 15).2.1 (by decide),
   (c5_severity_bands 25).2.2 (by decide)⟩

/-- C5 counterexample: at a cumulative total of exactly 10 the code
derives severity `warning`, while the claim's band `10 through 20`
requires `error`. -/
theorem c5_counterexample :
    slackSeverity 10 = "warning" ∧ slackSeverity 10 ≠ "error" := by
  refine ⟨rfl, by decide⟩

/-- C8 (amended): the alert system's configuration loader degrades to
the documented defaults (email alerts disabled, alert threshold 5) on a
missing or invalid configuration, but the monitor's configuration
loader terminates the process with exit code 1 in both cases instead of
continuing with defaults. -/
theorem c8_config_degradation :
    alert_load_config ConfigSource.missing = default_monitoring_config ∧
    alert_load_config ConfigSource.invalidJson = default_monitoring_config ∧
    default_monitoring_config.enable_email_alerts = false ∧
    default_monitoring_config.alert_threshold = 5 ∧
    monitor_load_config ConfigSource.missing = MonitorLoadResult.exitProcess 1 ∧
    monitor_load_config ConfigSource.invalidJson = MonitorLoadResult.exitProcess 1 :=
  ⟨rfl, rfl, rfl, rfl, rfl, rfl⟩

/-- C8 counterexample: on a missing configuration file the monitor's
loader exits the process (code 1); it does not continue with the
default configuration as the claim states for the pipeline. -/
theorem c8_counterexample :
    monitor_load_config ConfigSource.missing = MonitorLoadResult.exitProcess 1 ∧
    monitor_load_config ConfigSource.missing ≠
      MonitorLoadResult.ok default_monitoring_config :=
  ⟨rfl, by decide⟩

/-- C3 (amended): the email evaluation (`AlertSystem.send_threat_alert`)
builds an alert iff the batch is non-empty and the cumulative total has
reached the threshold; the Slack evaluation
(`WebhookNotifier.send_threat_alert_slack`) ignores the threshold and
builds an alert iff the batch is non-empty.  Both return none on an
empty batch. -/
theorem c3_threshold_gating (entries : List LogEntry) (total threshold : Nat) :
    ((send_threat_alert entries total threshold).isSome = true ↔
      (entries ≠ [] ∧ threshold ≤ total)) ∧
    ((send_threat_alert_slack entries total).isSome = true ↔ entries ≠ []) := by
  have hne : (entries.isEmpty = true) ↔ entries = [] := List.isEmpty_iff
  constructor
  · unfold send_threat_alert
    by_cases h1 : entries.isEmpty
    · rw [if_pos h1]
      simp only [Option.isSome_none, Bool.false_eq_true, false_iff]
      rintro ⟨hn, -⟩
      exact hn (hne.mp h1)
    · rw [if_neg h1]
      by_cases h2 : total < threshold
      · rw [if_pos h2]
        simp only [Option.isSome_none, Bool.false_eq_true, false_iff]
        rintro ⟨-, hle⟩
        omega
      · rw [if_neg h2]
        simp only [Option.isSome_some, true_iff]
        exact ⟨fun he => h1 (hne.mpr he), by omega⟩
  · unfold send_threat_alert_slack
    by_cases h1 : entries.isEmpty
    · rw [if_pos h1]
      simp only [Option.isSome_none, Bool.false_eq_true, false_iff]
      exact fun hn => hn (hne.mp h1)
    · rw [if_neg h1]
      simp only [Option.isSome_some, true_iff]
      exact fun he => h1 (hne.mpr he)

/-- C3 counterexample: with the default configured threshold 5 and a
cumulative total of only 1, a non-empty batch makes the Slack
evaluation build and dispatch an alert, while the email evaluation
correctly returns none — the dispatcher's evaluation is not gated by
`totalThreats >= threshold` on every channel. -/
theorem c3_counterexample :
    (send_threat_alert_slack [⟨str "T", str "I", str "m", str "m", []⟩] 1).isSome
        = true ∧
    (1 : Nat) < 5 ∧
    send_threat_alert [⟨str "T", str "I", str "m", str "m", []⟩] 1 5 = none := by
  refine ⟨by decide, by decide, by decide⟩

theorem lookupD_nil {α : Type} [DecidableEq α] (k : α) : lookupD ([] : List (α × Nat)) k = 0 := rfl

theorem lookupD_cons_pos {α : Type} [DecidableEq α] (q : α × Nat) (l : List (α × Nat))
    (k : α) (h : q.1 = k) : lookupD (q :: l) k = q.2 := by
  simp [lookupD, List.find?_cons_of_pos, h]

theorem lookupD_cons_neg {α : Type} [DecidableEq α] (q : α × Nat) (l : List (α × Nat))
    (k : α) (h : q.1 ≠ k) : lookupD (q :: l) k = lookupD l k := by
  simp [lookupD, List.find?_cons_of_neg, h]

theorem lookupD_bump_self {α : Type} [DecidableEq α] (m : List (α × Nat)) (k : α) :
    lookupD (bump m k) k = lookupD m k + 1 := by
  induction m with
  | nil => simp [bump, lookupD]
  | cons q rest ih =>
      by_cases h : q.1 = k
      · rw [bump, if_pos h, lookupD_cons_pos (q.1, q.2 + 1) rest k h,
          lookupD_cons_pos q rest k h]
      · rw [bump, if_neg h, lookupD_cons_neg q (bump rest k) k h,
          lookupD_cons_neg q rest k h, ih]

theorem lookupD_bump_ne {α : Type} [DecidableEq α] (m : List (α × Nat)) (k k' : α)
    (h : k' ≠ k) :
    lookupD (bump m k) k' = lookupD m k' := by
  induction m with
  | nil =>
      rw [bump, lookupD_cons_neg _ _ _ (Ne.symm h)]
  | cons q rest ih =>
      by_cases hq : q.1 = k
      · have hq' : q.1 ≠ k' := by rw [hq]; exact Ne.symm h
        rw [bump, if_pos hq, lookupD_cons_neg (q.1, q.2 + 1) rest k' hq',
          lookupD_cons_neg q rest k' hq']
      · by_cases hq' : q.1 = k'
        · rw [bump, if_neg hq, lookupD_cons_pos q (bump rest k) k' hq',
            lookupD_cons_pos q rest k' hq']
        · rw [bump, if_neg hq, lookupD_cons_neg q (bump rest k) k' hq',
            lookupD_cons_neg q rest k' hq', ih]

theorem foldl_skip {α β : Type} (l : List β) (m : α) :
    l.foldl (fun m _ => m) m = m := by
  induction l generalizing m with
  | nil => rfl
  | cons a l ih => simp [ih]

theorem lookupD_foldl_bump {α : Type} [DecidableEq α] (ks : List α)
    (m : List (α × Nat)) (k : α) :
    lookupD (ks.foldl bump m) k
      = lookupD m k + (ks.filter (fun x => decide (x = k))).length := by
  induction ks generalizing m with
  | nil => simp
  | cons a ks ih =>
      simp only [List.foldl_cons]
      rw [ih]
      by_cases h : a = k
      · subst h
        rw [lookupD_bump_self]
        simp [List.filter_cons]
        omega
      · rw [lookupD_bump_ne _ _ _ (Ne.symm h)]
        simp [List.filter_cons, h]

theorem sum_bump {α : Type} [DecidableEq α] (m : List (α × Nat)) (k : α) :
    ((bump m k).map Prod.snd).sum = (m.map Prod.snd).sum + 1 := by
  induction m with
  | nil => simp [bump]
  | cons q rest ih =>
      by_cases h : q.1 = k
      · rw [bump, if_pos h]
        simp
        omega
      · rw [bump, if_neg h]
        simp [ih]
        omega

theorem sum_foldl_bump {α : Type} [DecidableEq α] (ks : List α) (m : List (α × Nat)) :
    ((ks.foldl bump m).map Prod.snd).sum = (m.map Prod.snd).sum + ks.length := by
  induction ks generalizing m with
  | nil => simp
  | cons a ks ih =>
      simp only [List.foldl_cons]
      rw [ih, sum_bump]
      simp
      omega

theorem analyze_threat_counts (st : ParserState) (e : LogEntry) :
    (analyze_log_entry st e).1.threat_counts
      = (check_patterns e.raw_line).foldl (fun m t => bump m t.1) st.threat_counts := rfl

theorem analyze_entry_eq (st : ParserState) (e : LogEntry) :
    (analyze_log_entry st e).2
      = { e with threats := e.threats ++ check_patterns e.raw_line } := rfl

theorem analyze_suspicious_ips (st : ParserState) (e : LogEntry) :
    (analyze_log_entry st e).1.suspicious_ips
      = if 0 < (e.threats ++ check_patterns e.raw_line).length then
          (findall ipRE e.raw_line).foldl bump st.suspicious_ips
        else st.suspicious_ips := by
  show (findall ipRE e.raw_line).foldl
      (fun m ip => if ({ e with threats := e.threats ++ check_patterns e.raw_line }
        : LogEntry).is_suspicious then bump m ip else m) st.suspicious_ips = _
  by_cases hs : 0 < (e.threats ++ check_patterns e.raw_line).length
  · rw [if_pos hs]
    have hc : ({ e with threats := e.threats ++ check_patterns e.raw_line }
        : LogEntry).is_suspicious = true := decide_eq_true hs
    simp only [hc, if_true]
  · rw [if_neg hs]
    have hc : ({ e with threats := e.threats ++ check_patterns e.raw_line }
        : LogEntry).is_suspicious = false := decide_eq_false hs
    simp only [hc, Bool.false_eq_true, if_false]
    exact foldl_skip _ _

/-- C4 (amended): for every entry, the per-source counting step adds,
for each address, one count per occurrence of that address among the
IPv4-shaped substrings found in the raw line — all occurrences, not
only the first — and adds nothing when the entry ended up not
suspicious. -/
theorem c4_ip_counting (st : ParserState) (e : LogEntry) (ip : Str) :
    lookupD (analyze_log_entry st e).1.suspicious_ips ip
      = lookupD st.suspicious_ips ip
        + (if 0 < (e.threats ++ check_patterns e.raw_line).length then
            ((findall ipRE e.raw_line).filter (fun x => decide (x = ip))).length
          else 0) := by
  rw [analyze_suspicious_ips]
  by_cases hs : 0 < (e.threats ++ check_patterns e.raw_line).length
  · rw [if_pos hs, if_pos hs, lookupD_foldl_bump]
  · rw [if_neg hs, if_neg hs]
    omega

/-- C4 counterexample: a suspicious failed-login line containing
`1.2.3.4` twice and `5.6.7.8` once ends with the counter of `1.2.3.4`
at 2 (the claim requires once per entry) and the counter of `5.6.7.8`
at 1 (the claim requires only the first address to be recorded). -/
theorem c4_counterexample :
    lookupD (analyze_log_entry ⟨[], []⟩
        ⟨str "T", str "I",
         str "Failed password for root from 1.2.3.4 and 1.2.3.4 or 5.6.7.8",
         str "Failed password for root from 1.2.3.4 and 1.2.3.4 or 5.6.7.8",
         []⟩).1.suspicious_ips (str "1.2.3.4") = 2 ∧
    lookupD (analyze_log_entry ⟨[], []⟩
        ⟨str "T", str "I",
         str "Failed password for root from 1.2.3.4 and 1.2.3.4 or 5.6.7.8",
         str "Failed password for root from 1.2.3.4 and 1.2.3.4 or 5.6.7.8",
         []⟩).1.suspicious_ips (str "5.6.7.8") = 1 := by
  refine ⟨by decide, by decide⟩

theorem parse_log_line_isSome (line now : Str) :
    (parse_log_line line now).isSome = true := by
  unfold parse_log_line
  rcases reMatch syslog_re line with _ | m1
  · rcases reMatch iso_re line with _ | m2
    · rcases reMatch simple_re line with _ | m3
      · rfl
      · rfl
    · rfl
  · rfl

theorem parse_log_line_threats (line now : Str) (e : LogEntry)
    (h : parse_log_line line now = some e) : e.threats = [] := by
  unfold parse_log_line at h
  split at h
  · cases h
    rfl
  · split at h
    · cases h
      rfl
    · split at h
      · cases h
        rfl
      · cases h
        rfl

theorem monitor_process_line_false (mlTag : String) (now : Str) (st : ParserState)
    (line : Str) (e : LogEntry) (hp : parse_log_line line now = some e) :
    monitor_process_line (fun _ => false) mlTag now st line
      = ((analyze_log_entry st e).1, some (analyze_log_entry st e).2) := by
  unfold monitor_process_line
  rw [hp]
  rfl

/-- Conservation invariant of the per-pass loop when the ML detector
adds nothing: the totals grow exactly by the classifier matches of the
processed entries. -/
theorem monitor_process_conservation (mlTag : String) (now : Str)
    (lines : List Str) : ∀ st : ParserState,
    total_threats (monitor_process (fun _ => false) mlTag now st lines).1
      = total_threats st
        + ((monitor_process (fun _ => false) mlTag now st lines).2.map
            (fun e => e.threats.length)).sum
    ∧ ∀ c : String,
      lookupD (monitor_process (fun _ => false) mlTag now st lines).1.threat_counts c
        = lookupD st.threat_counts c
          + ((monitor_process (fun _ => false) mlTag now st lines).2.map
              (fun e => (e.threats.filter (fun t => decide (t.1 = c))).length)).sum := by
  induction lines with
  | nil => intro st; simp [monitor_process]
  | cons l ls ih =>
      intro st
      by_cases hb : (strip l).isEmpty
      · simp only [monitor_process, hb, if_true]
        exact ih st
      · rcases hp : parse_log_line (strip l) now with _ | e
        · have := parse_log_line_isSome (strip l) now
          rw [hp] at this
          cases this
        · simp only [monitor_process, hb, Bool.false_eq_true, if_false,
            monitor_process_line_false mlTag now st (strip l) e hp]
          have hthreats : (analyze_log_entry st e).2.threats
              = check_patterns e.raw_line := by
            rw [analyze_entry_eq, parse_log_line_threats (strip l) now e hp]
            rfl
          have htc := analyze_threat_counts st e
          have hmain := ih (analyze_log_entry st e).1
          constructor
          · rw [List.map_cons, List.sum_cons, hmain.1]
            simp only [total_threats]
            rw [htc, ← List.foldl_map, sum_foldl_bump, hthreats, List.length_map]
            omega
          · intro c
            rw [List.map_cons, List.sum_cons, hmain.2 c, htc, ← List.foldl_map,
              lookupD_foldl_bump, hthreats]
            have hlen : (((check_patterns e.raw_line).map Prod.fst).filter
                  (fun x => decide (x = c))).length
                = ((check_patterns e.raw_line).filter
                    (fun t => decide (t.1 = c))).length := by
              rw [List.filter_map, List.length_map]
              rfl
            omega

/-- C2 (amended): when the ML detector contributes nothing (disabled or
untrained — `mlHit` constantly false), processing any sequence of lines
from a reset aggregator preserves conservation: `totalThreats` equals
the sum of the lengths of the processed entries' threat lists, and each
per-category counter equals the number of matches with that category.
When the ML detector does fire, it appends a threat to the entry
without touching the counters, breaking this equality (see the
counterexample). -/
theorem c2_aggregator_conservation (mlTag : String) (now : Str) (lines : List Str) :
    total_threats (monitor_process (fun _ => false) mlTag now ⟨[], []⟩ lines).1
      = ((monitor_process (fun _ => false) mlTag now ⟨[], []⟩ lines).2.map
          (fun e => e.threats.length)).sum
    ∧ ∀ c : String,
      lookupD (monitor_process (fun _ => false) mlTag now ⟨[], []⟩ lines).1.threat_counts c
        = ((monitor_process (fun _ => false) mlTag now ⟨[], []⟩ lines).2.map
            (fun e => (e.threats.filter (fun t => decide (t.1 = c))).length)).sum := by
  have h := monitor_process_conservation mlTag now lines ⟨[], []⟩
  constructor
  · have h1 := h.1
    simpa [total_threats] using h1
  · intro c
    have h2 := h.2 c
    simpa [lookupD] using h2

/-- C2 counterexample: one line `abc` matches no catalog pattern, but
the ML detector flags it; the monitor appends the ML threat to the
entry without incrementing the aggregator, so `totalThreats` is 0 while
the sum of the entries' threat-list lengths is 1. -/
theorem c2_counterexample :
    total_threats (monitor_process (fun _ => true) "Score: 0.90" (str "T")
        ⟨[], []⟩ [str "abc"]).1 = 0 ∧
    ((monitor_process (fun _ => true) "Score: 0.90" (str "T")
        ⟨[], []⟩ [str "abc"]).2.map (fun e => e.threats.length)).sum = 1 := by
  refine ⟨by decide, by decide⟩

/-- C6: for every input string, parsing is total: `parse_log_line`
always returns an entry; and when none of the three format grammars
matches, the result is the unknown-shaped entry whose level is
`UNKNOWN`, whose message and raw line are the input line, and whose
timestamp text is the current wall-clock time `now`. -/
theorem c6_parse_totality (line now : Str) :
    (parse_log_line line now).isSome = true ∧
    (reMatch syslog_re line = none → reMatch iso_re line = none →
      reMatch simple_re line = none →
      parse_log_line line now = some ⟨now, str "UNKNOWN", line, line, []⟩) := by
  refine ⟨parse_log_line_isSome line now, fun h1 h2 h3 => ?_⟩
  unfold parse_log_line
  rw [h1, h2, h3]

theorem c6_parse_totality_witness :
    parse_log_line (str "hello") (str "T")
      = some ⟨str "T", str "UNKNOWN", str "hello", str "hello", []⟩ :=
  (c6_parse_totality (str "hello") (str "T")).2 (by decide) (by decide) (by decide)

theorem filter_orderedInsert (c : Nat) (x : Str × Nat) (l : List (Str × Nat)) :
    (List.orderedInsert ipGE x l).filter (fun q => decide (q.2 = c))
      = if x.2 = c then x :: l.filter (fun q => decide (q.2 = c))
        else l.filter (fun q => decide (q.2 = c)) := by
  induction l with
  | nil =>
      by_cases h : x.2 = c <;> simp [List.orderedInsert, List.filter, h]
  | cons b l ih =>
      by_cases hr : ipGE x b
      · simp only [List.orderedInsert, if_pos hr]
        by_cases h : x.2 = c <;> simp [List.filter_cons, h]
      · simp only [List.orderedInsert, if_neg hr]
        by_cases h : x.2 = c
        · have hb : ¬ b.2 = c := by
            unfold ipGE at hr
            omega
          simp [List.filter_cons, hb, ih, h]
        · simp [List.filter_cons, ih, h]

theorem filter_insertionSort (c : Nat) (l : List (Str × Nat)) :
    (List.insertionSort ipGE l).filter (fun q => decide (q.2 = c))
      = l.filter (fun q => decide (q.2 = c)) := by
  induction l with
  | nil => rfl
  | cons x l ih =>
      rw [List.insertionSort, filter_orderedInsert]
      by_cases h : x.2 = c <;> simp [List.filter_cons, h, ih]

/-- C9: the top-sources ranking is the 10-element prefix of the stable
descending sort of the insertion-ordered per-address counters: counts
are non-increasing along the ranking, and the elements of any fixed
count appear exactly in their first-seen (insertion) order — the sorted
list restricted to one count value equals the unsorted map restricted
to it. -/
theorem c9_top_sources_order (st : ParserState) :
    List.Pairwise (fun a b : Str × Nat => b.2 ≤ a.2) (top_suspicious_ips st) ∧
    top_suspicious_ips st = (sorted_ips st).take 10 ∧
    ∀ c : Nat, (sorted_ips st).filter (fun q => decide (q.2 = c))
      = st.suspicious_ips.filter (fun q => decide (q.2 = c)) := by
  refine ⟨?_, rfl, fun c => filter_insertionSort c st.suspicious_ips⟩
  haveI : IsTotal (Str × Nat) ipGE := ⟨fun a b => Nat.le_total b.2 a.2⟩
  haveI : IsTrans (Str × Nat) ipGE := ⟨fun a b c hab hbc => Nat.le_trans hbc hab⟩
  have hs := List.sorted_insertionSort ipGE st.suspicious_ips
  exact List.Pairwise.sublist (List.take_sublist 10 _) hs

/-! Case-insensitivity.  `IsCI r` says every predicate of `r` is stable
under ASCII case folding; all rules carrying the `(?i)` flag satisfy
it, and matching such a rule cannot distinguish two texts that agree up
to case. -/

theorem lowerN_cases (n : Nat) :
    (65 ≤ n ∧ n ≤ 90 ∧ lowerN n = n + 32) ∨ (¬(65 ≤ n ∧ n ≤ 90) ∧ lowerN n = n) := by
  unfold lowerN
  by_cases h : 65 ≤ n ∧ n ≤ 90
  · exact Or.inl ⟨h.1, h.2, by rw [if_pos h]⟩
  · exact Or.inr ⟨h, by rw [if_neg h]⟩

theorem isWordN_ci (n m : Nat) (h : lowerN n = lowerN m) : isWordN n = isWordN m := by
  rcases lowerN_cases n with ⟨h1, h2, h3⟩ | ⟨h1, h3⟩ <;>
    rcases lowerN_cases m with ⟨g1, g2, g3⟩ | ⟨g1, g3⟩ <;>
    rw [h3, g3] at h <;>
    · unfold isWordN
      apply decide_eq_decide.mpr
      omega

theorem isSpaceN_ci (n m : Nat) (h : lowerN n = lowerN m) : isSpaceN n = isSpaceN m := by
  rcases lowerN_cases n with ⟨h1, h2, h3⟩ | ⟨h1, h3⟩ <;>
    rcases lowerN_cases m with ⟨g1, g2, g3⟩ | ⟨g1, g3⟩ <;>
    rw [h3, g3] at h <;>
    · unfold isSpaceN
      apply decide_eq_decide.mpr
      omega

theorem notNl_ci (n m : Nat) (h : lowerN n = lowerN m) :
    decide (n ≠ 10) = decide (m ≠ 10) := by
  rcases lowerN_cases n with ⟨h1, h2, h3⟩ | ⟨h1, h3⟩ <;>
    rcases lowerN_cases m with ⟨g1, g2, g3⟩ | ⟨g1, g3⟩ <;>
    rw [h3, g3] at h <;>
    · apply decide_eq_decide.mpr
      omega

theorem notGt_ci (n m : Nat) (h : lowerN n = lowerN m) :
    decide (n ≠ 62) = decide (m ≠ 62) := by
  rcases lowerN_cases n with ⟨h1, h2, h3⟩ | ⟨h1, h3⟩ <;>
    rcases lowerN_cases m with ⟨g1, g2, g3⟩ | ⟨g1, g3⟩ <;>
    rw [h3, g3] at h <;>
    · apply decide_eq_decide.mpr
      omega

/-- Correspondence of two match results up to ASCII case. -/
def MRel (x y : MRes) : Prop := lcL x.left = lcL y.left ∧ lcL x.rest = lcL y.rest

inductive IsCI : RE → Prop where
  | eps : IsCI RE.eps
  | pred {p : Nat → Bool} (h : ∀ n m, lowerN n = lowerN m → p n = p m) :
      IsCI (RE.pred p)
  | seq {a b : RE} : IsCI a → IsCI b → IsCI (RE.seq a b)
  | alt {a b : RE} : IsCI a → IsCI b → IsCI (RE.alt a b)
  | star {lz : Bool} {a : RE} : IsCI a → IsCI (RE.star lz a)
  | group {i : Nat} {a : RE} : IsCI a → IsCI (RE.group i a)
  | wordB : IsCI RE.wordB

theorem forall2_append {α β : Type} {R : α → β → Prop} {l₁ u₁ : List α}
    {l₂ u₂ : List β} (h : List.Forall₂ R l₁ l₂) (hu : List.Forall₂ R u₁ u₂) :
    List.Forall₂ R (l₁ ++ u₁) (l₂ ++ u₂) := by
  induction h with
  | nil => exact hu
  | cons hab _ ih => exact List.Forall₂.cons hab ih

theorem forall2_map {α β γ δ : Type} {R : α → β → Prop} {S : γ → δ → Prop}
    {f : α → γ} {g : β → δ} {l₁ : List α} {l₂ : List β}
    (h : List.Forall₂ R l₁ l₂) (hfg : ∀ a b, R a b → S (f a) (g b)) :
    List.Forall₂ S (l₁.map f) (l₂.map g) := by
  induction h with
  | nil => exact List.Forall₂.nil
  | cons hab _ ih => exact List.Forall₂.cons (hfg _ _ hab) ih

theorem forall2_flatMap {α β γ δ : Type} {R : α → β → Prop} {S : γ → δ → Prop}
    {f : α → List γ} {g : β → List δ} {l₁ : List α} {l₂ : List β}
    (h : List.Forall₂ R l₁ l₂) (hfg : ∀ a b, R a b → List.Forall₂ S (f a) (g b)) :
    List.Forall₂ S (l₁.flatMap f) (l₂.flatMap g) := by
  induction h with
  | nil => exact List.Forall₂.nil
  | cons hab _ ih =>
      simp only [List.flatMap_cons]
      exact forall2_append (hfg _ _ hab) ih

theorem forall2_filter {α β : Type} {R : α → β → Prop} {p : α → Bool} {q : β → Bool}
    {l₁ : List α} {l₂ : List β} (h : List.Forall₂ R l₁ l₂)
    (hpq : ∀ a b, R a b → p a = q b) :
    List.Forall₂ R (l₁.filter p) (l₂.filter q) := by
  induction h with
  | nil => exact List.Forall₂.nil
  | @cons a b t₁ t₂ hab htl ih =>
      simp only [List.filter_cons]
      rw [← hpq a b hab]
      by_cases hpa : p a
      · simp only [hpa, if_true]
        exact List.Forall₂.cons hab ih
      · simp only [hpa, Bool.false_eq_true, if_false]
        exact ih

theorem lcL_length {u v : Str} (h : lcL u = lcL v) : u.length = v.length := by
  have := congrArg List.length h
  simpa [lcL] using this

theorem optWord_ci (u v : Str) (h : lcL u = lcL v) :
    optWord u.head? = optWord v.head? := by
  cases u with
  | nil =>
      cases v with
      | nil => rfl
      | cons d ds => exact absurd h (by simp [lcL])
  | cons c cs =>
      cases v with
      | nil => exact absurd h (by simp [lcL])
      | cons d ds =>
          simp only [lcL, List.map_cons, List.cons.injEq] at h
          simpa [optWord] using isWordN_ci c d h.1

/-- Matching a case-insensitive expression on two texts that agree up
to ASCII case produces result lists that correspond pairwise up to
case. -/
theorem mtch_ci : ∀ (fuel : Nat) (r : RE), IsCI r →
    ∀ (l₁ s₁ l₂ s₂ : Str), lcL l₁ = lcL l₂ → lcL s₁ = lcL s₂ →
    List.Forall₂ MRel (mtch fuel r l₁ s₁) (mtch fuel r l₂ s₂) := by
  intro fuel
  induction fuel with
  | zero =>
      intro r _ l₁ s₁ l₂ s₂ _ _
      simp only [mtch]
      exact List.Forall₂.nil
  | succ n ih =>
      intro r hr l₁ s₁ l₂ s₂ hl hs
      cases hr with
      | eps =>
          simp only [mtch]
          exact List.Forall₂.cons ⟨hl, hs⟩ List.Forall₂.nil
      | @pred p hp =>
          cases s₁ with
          | nil =>
              cases s₂ with
              | nil =>
                  simp only [mtch]
                  exact List.Forall₂.nil
              | cons d ds => exact absurd hs (by simp [lcL])
          | cons c cs =>
              cases s₂ with
              | nil => exact absurd hs (by simp [lcL])
              | cons d ds =>
                  simp only [lcL, List.map_cons, List.cons.injEq] at hs
                  obtain ⟨hcd, hcs⟩ := hs
                  simp only [mtch]
                  rw [hp c d hcd]
                  by_cases hd : p d
                  · simp only [hd, if_true]
                    refine List.Forall₂.cons ⟨?_, hcs⟩ List.Forall₂.nil
                    simp only [lcL, List.map_cons, hcd]
                    exact congrArg (List.cons (lowerN d)) hl
                  · simp only [hd, Bool.false_eq_true, if_false]
                    exact List.Forall₂.nil
      | @seq a b ha hb =>
          simp only [mtch]
          apply forall2_flatMap (ih a ha l₁ s₁ l₂ s₂ hl hs)
          intro x y hxy
          apply forall2_map (ih b hb x.left x.rest y.left y.rest hxy.1 hxy.2)
          intro u v huv
          exact ⟨huv.1, huv.2⟩
      | @alt a b ha hb =>
          simp only [mtch]
          exact forall2_append (ih a ha l₁ s₁ l₂ s₂ hl hs)
            (ih b hb l₁ s₁ l₂ s₂ hl hs)
      | @star lz a ha =>
          simp only [mtch]
          have hstop : List.Forall₂ MRel [⟨l₁, s₁, []⟩] [⟨l₂, s₂, []⟩] :=
            List.Forall₂.cons ⟨hl, hs⟩ List.Forall₂.nil
          have hlen : s₁.length = s₂.length := lcL_length hs
          have hgo : List.Forall₂ MRel
              (((mtch n a l₁ s₁).filter
                  (fun x => decide (x.rest.length < s₁.length))).flatMap
                (fun x => (mtch n (RE.star lz a) x.left x.rest).map
                  (fun y => ⟨y.left, y.rest, x.caps ++ y.caps⟩)))
              (((mtch n a l₂ s₂).filter
                  (fun x => decide (x.rest.length < s₂.length))).flatMap
                (fun x => (mtch n (RE.star lz a) x.left x.rest).map
                  (fun y => ⟨y.left, y.rest, x.caps ++ y.caps⟩))) := by
            apply forall2_flatMap
            · apply forall2_filter (ih a ha l₁ s₁ l₂ s₂ hl hs)
              intro x y hxy
              rw [lcL_length hxy.2, hlen]
            · intro x y hxy
              apply forall2_map (ih (RE.star lz a) (IsCI.star ha)
                x.left x.rest y.left y.rest hxy.1 hxy.2)
              intro u v huv
              exact ⟨huv.1, huv.2⟩
          cases lz
          · exact forall2_append hgo hstop
          · exact forall2_append hstop hgo
      | @group i a ha =>
          simp only [mtch]
          apply forall2_map (ih a ha l₁ s₁ l₂ s₂ hl hs)
          intro u v huv
          exact ⟨huv.1, huv.2⟩
      | wordB =>
          simp only [mtch]
          rw [optWord_ci l₁ l₂ hl, optWord_ci s₁ s₂ hs]
          by_cases hcond : optWord l₂.head? = optWord s₂.head?
          · simp only [hcond, if_true]
            exact List.Forall₂.nil
          · simp only [hcond, if_false]
            exact List.Forall₂.cons ⟨hl, hs⟩ List.Forall₂.nil

theorem forall2_isEmpty {α β : Type} {R : α → β → Prop} {l₁ : List α} {l₂ : List β}
    (h : List.Forall₂ R l₁ l₂) : l₁.isEmpty = l₂.isEmpty := by
  cases h with
  | nil => rfl
  | cons _ _ => rfl

theorem searchFrom_ci (fuel : Nat) (r : RE) (hr : IsCI r) :
    ∀ (s₁ s₂ l₁ l₂ : Str), lcL l₁ = lcL l₂ → lcL s₁ = lcL s₂ →
    searchFrom fuel r l₁ s₁ = searchFrom fuel r l₂ s₂ := by
  intro s₁
  induction s₁ with
  | nil =>
      intro s₂ l₁ l₂ hl hs
      cases s₂ with
      | nil =>
          simp only [searchFrom]
          rw [forall2_isEmpty (mtch_ci fuel r hr l₁ [] l₂ [] hl hs)]
      | cons d ds => exact absurd hs (by simp [lcL])
  | cons c cs ih =>
      intro s₂ l₁ l₂ hl hs
      cases s₂ with
      | nil => exact absurd hs (by simp [lcL])
      | cons d ds =>
          have hs' := hs
          simp only [lcL, List.map_cons, List.cons.injEq] at hs'
          obtain ⟨hcd, hcs⟩ := hs'
          simp only [searchFrom]
          rw [forall2_isEmpty (mtch_ci fuel r hr l₁ (c :: cs) l₂ (d :: ds) hl hs)]
          have hleft : lcL (c :: l₁) = lcL (d :: l₂) := by
            simp only [lcL, List.map_cons, hcd]
            exact congrArg (List.cons (lowerN d)) hl
          rw [ih ds (c :: l₁) (d :: l₂) hleft hcs]

/-- Searching a case-insensitive rule cannot distinguish two texts that
agree up to ASCII case. -/
theorem research_ci (r : RE) (hr : IsCI r) (s₁ s₂ : Str) (hs : lcL s₁ = lcL s₂) :
    research r s₁ = research r s₂ := by
  unfold research
  have hlen : s₁.length = s₂.length := lcL_length hs
  have hfuel : fuelFor r s₁ = fuelFor r s₂ := by
    unfold fuelFor
    rw [hlen]
  rw [hfuel]
  exact searchFrom_ci (fuelFor r s₂) r hr s₁ s₂ [] [] rfl hs

theorem isCI_chI (k : Nat) : IsCI (chI k) :=
  IsCI.pred (fun n m h => by rw [show lowerN n = lowerN m from h])

theorem isCI_rSeq (l : List RE) (h : ∀ r ∈ l, IsCI r) : IsCI (rSeq l) := by
  induction l with
  | nil => exact IsCI.eps
  | cons a t ih =>
      exact IsCI.seq (h a (by simp)) (ih (fun r hr => h r (by simp [hr])))

theorem isCI_litI (s : String) : IsCI (litI s) := by
  apply isCI_rSeq
  intro r hr
  simp only [List.mem_map] at hr
  obtain ⟨k, -, rfl⟩ := hr
  exact isCI_chI k

theorem isCI_altN (l : List RE) (h : ∀ r ∈ l, IsCI r) : IsCI (altN l) := by
  induction l with
  | nil => exact IsCI.pred (fun n m _ => rfl)
  | cons a t ih =>
      cases t with
      | nil => exact h a (by simp)
      | cons b u =>
          exact IsCI.alt (h a (by simp)) (ih (fun r hr => h r (by simp [hr])))

theorem isCI_rNotNl : IsCI rNotNl := IsCI.pred notNl_ci

theorem isCI_rNotGt : IsCI rNotGt := IsCI.pred notGt_ci

theorem isCI_rSpace : IsCI rSpace := IsCI.pred isSpaceN_ci

theorem isCI_dotStar : IsCI dotStar := IsCI.star isCI_rNotNl

theorem isCI_dotPlus : IsCI dotPlus := IsCI.seq isCI_rNotNl isCI_dotStar

theorem isCI_rule_sql1 : IsCI rule_sql1.rex := by
  refine IsCI.group (isCI_altN _ ?_)
  intro r hr
  simp only [List.mem_cons, List.not_mem_nil, or_false] at hr
  rcases hr with rfl | rfl | rfl | rfl | rfl <;>
    refine isCI_rSeq _ ?_ <;>
    intro q hq <;>
    simp only [List.mem_cons, List.not_mem_nil, or_false] at hq <;>
    rcases hq with rfl | rfl | rfl | rfl | rfl <;>
    first
      | exact isCI_litI _
      | exact isCI_dotStar

theorem isCI_rule_sql2 : IsCI rule_sql2.rex := by
  refine IsCI.group (isCI_altN _ ?_)
  intro r hr
  simp only [List.mem_cons, List.not_mem_nil, or_false] at hr
  rcases hr with rfl | rfl <;>
    refine isCI_rSeq _ ?_ <;>
    intro q hq <;>
    simp only [List.mem_cons, List.not_mem_nil, or_false] at hq <;>
    rcases hq with rfl | rfl | rfl | rfl | rfl | rfl | rfl | rfl | rfl <;>
    first
      | exact isCI_litI _
      | exact isCI_dotStar

theorem isCI_rule_sql3 : IsCI rule_sql3.rex := by
  refine IsCI.group (isCI_altN _ ?_)
  intro r hr
  simp only [List.mem_cons, List.not_mem_nil, or_false] at hr
  rcases hr with rfl | rfl | rfl <;>
    refine isCI_rSeq _ ?_ <;>
    intro q hq <;>
    simp only [List.mem_cons, List.not_mem_nil, or_false] at hq <;>
    rcases hq with rfl | rfl | rfl <;>
    first
      | exact isCI_litI _
      | exact isCI_dotStar

theorem isCI_rule_sql4 : IsCI rule_sql4.rex := by
  refine IsCI.group (isCI_altN _ ?_)
  intro r hr
  simp only [List.mem_cons, List.not_mem_nil, or_false] at hr
  rcases hr with rfl | rfl | rfl
  · refine isCI_rSeq _ ?_
    intro q hq
    simp only [List.mem_cons, List.not_mem_nil, or_false] at hq
    rcases hq with rfl | rfl | rfl <;>
      first
        | exact isCI_litI _
        | exact isCI_dotStar
  · refine isCI_rSeq _ ?_
    intro q hq
    simp only [List.mem_cons, List.not_mem_nil, or_false] at hq
    rcases hq with rfl | rfl | rfl <;>
      first
        | exact isCI_litI _
        | exact isCI_dotStar
  · exact isCI_litI _

theorem isCI_rule_xss1 : IsCI rule_xss1.rex := by
  refine isCI_rSeq _ ?_
  intro q hq
  simp only [List.mem_cons, List.not_mem_nil, or_false] at hq
  rcases hq with rfl | rfl | rfl | rfl | rfl <;>
    first
      | exact isCI_litI _
      | exact IsCI.star isCI_rNotGt
      | exact IsCI.star isCI_rNotNl

theorem isCI_rule_xss2 : IsCI rule_xss2.rex := isCI_litI _

theorem isCI_rule_xss3 : IsCI rule_xss3.rex := by
  refine isCI_rSeq _ ?_
  intro q hq
  simp only [List.mem_cons, List.not_mem_nil, or_false] at hq
  rcases hq with rfl | rfl | rfl <;>
    first
      | exact isCI_litI _
      | exact IsCI.star isCI_rSpace

theorem isCI_rule_xss4 : IsCI rule_xss4.rex := by
  refine isCI_rSeq _ ?_
  intro q hq
  simp only [List.mem_cons, List.not_mem_nil, or_false] at hq
  rcases hq with rfl | rfl | rfl <;>
    first
      | exact isCI_litI _
      | exact IsCI.star isCI_rSpace

theorem isCI_rule_xss5 : IsCI rule_xss5.rex := by
  refine isCI_rSeq _ ?_
  intro q hq
  simp only [List.mem_cons, List.not_mem_nil, or_false] at hq
  rcases hq with rfl | rfl | rfl <;>
    first
      | exact isCI_litI _
      | exact IsCI.star isCI_rNotGt

theorem isCI_rule_ua1 : IsCI rule_ua1.rex := isCI_litI _

theorem isCI_rule_ua2 : IsCI rule_ua2.rex := isCI_litI _

theorem isCI_rule_ua3 : IsCI rule_ua3.rex := isCI_litI _

theorem isCI_rule_ua4 : IsCI rule_ua4.rex := isCI_litI _

theorem isCI_rule_ua5 : IsCI rule_ua5.rex := isCI_litI _

theorem isCI_rule_pe1 : IsCI rule_pe1.rex := by
  refine isCI_rSeq _ ?_
  intro q hq
  simp only [List.mem_cons, List.not_mem_nil, or_false] at hq
  rcases hq with rfl | rfl | rfl | rfl | rfl <;>
    first
      | exact isCI_litI _
      | exact isCI_dotStar
      | exact IsCI.seq isCI_rSpace (IsCI.star isCI_rSpace)

theorem isCI_rule_pe2 : IsCI rule_pe2.rex := by
  refine isCI_rSeq _ ?_
  intro q hq
  simp only [List.mem_cons, List.not_mem_nil, or_false] at hq
  rcases hq with rfl | rfl | rfl <;>
    first
      | exact isCI_litI _
      | exact isCI_dotStar

theorem isCI_rule_pe3 : IsCI rule_pe3.rex := by
  refine isCI_rSeq _ ?_
  intro q hq
  simp only [List.mem_cons, List.not_mem_nil, or_false] at hq
  rcases hq with rfl | rfl | rfl | rfl | rfl <;>
    first
      | exact isCI_litI _
      | exact isCI_dotStar

/-- Does a regular expression contain a capture group?  The catalog's
"IP-capturing" rules are exactly those whose regex has one. -/
def hasGroup : RE → Bool
  | RE.eps => false
  | RE.pred _ => false
  | RE.seq a b => hasGroup a || hasGroup b
  | RE.alt a b => hasGroup a || hasGroup b
  | RE.star _ a => hasGroup a
  | RE.group _ _ => true
  | RE.wordB => false

/-- C7 (amended): every catalog rule carrying the `(?i)` flag — all
SQL-injection, XSS and unauthorized-access rules and the first three
privilege-escalation rules — matches case-insensitively: two lines that
agree up to ASCII case are both matched or both not.  The rules without
the flag (the IP-capturing failed-login and port-scan rules, the
directory-traversal rules, and also the SYN-scan rule and the
su-authentication-failure rule, which are neither directory-traversal
nor IP-capturing) are case-sensitive; the last two refute the claim as
stated (see the counterexample). -/
theorem c7_case_insensitive_rules (cat : String) (rules : List Rule)
    (hmem : (cat, rules) ∈ get_all_patterns) (r : Rule) (hr : r ∈ rules)
    (hci : r.ci = true) (s t : Str) (hst : lcL s = lcL t) :
    research r.rex s = research r.rex t := by
  simp only [get_all_patterns, List.mem_cons, List.not_mem_nil, or_false] at hmem
  rcases hmem with h | h | h | h | h | h | h <;>
      (injection h with h1 h2; subst h2)
  · simp only [FAILED_LOGIN_PATTERNS, List.mem_cons, List.not_mem_nil, or_false] at hr
    rcases hr with rfl | rfl | rfl | rfl | rfl <;> exact absurd hci (by decide)
  · simp only [SQL_INJECTION_PATTERNS, List.mem_cons, List.not_mem_nil, or_false] at hr
    rcases hr with rfl | rfl | rfl | rfl
    · exact research_ci _ isCI_rule_sql1 s t hst
    · exact research_ci _ isCI_rule_sql2 s t hst
    · exact research_ci _ isCI_rule_sql3 s t hst
    · exact research_ci _ isCI_rule_sql4 s t hst
  · simp only [XSS_PATTERNS, List.mem_cons, List.not_mem_nil, or_false] at hr
    rcases hr with rfl | rfl | rfl | rfl | rfl
    · exact research_ci _ isCI_rule_xss1 s t hst
    · exact research_ci _ isCI_rule_xss2 s t hst
    · exact research_ci _ isCI_rule_xss3 s t hst
    · exact research_ci _ isCI_rule_xss4 s t hst
    · exact research_ci _ isCI_rule_xss5 s t hst
  · simp only [DIRECTORY_TRAVERSAL_PATTERNS, List.mem_cons, List.not_mem_nil,
      or_false] at hr
    rcases hr with rfl | rfl | rfl | rfl <;> exact absurd hci (by decide)
  · simp only [UNAUTHORIZED_ACCESS_PATTERNS, List.mem_cons, List.not_mem_nil,
      or_false] at hr
    rcases hr with rfl | rfl | rfl | rfl | rfl
    · exact research_ci _ isCI_rule_ua1 s t hst
    · exact research_ci _ isCI_rule_ua2 s t hst
    · exact research_ci _ isCI_rule_ua3 s t hst
    · exact research_ci _ isCI_rule_ua4 s t hst
    · exact research_ci _ isCI_rule_ua5 s t hst
  · simp only [PORT_SCAN_PATTERNS, List.mem_cons, List.not_mem_nil, or_false] at hr
    rcases hr with rfl | rfl | rfl <;> exact absurd hci (by decide)
  · simp only [PRIVILEGE_ESCALATION_PATTERNS, List.mem_cons, List.not_mem_nil,
      or_false] at hr
    rcases hr with rfl | rfl | rfl | rfl
    · exact research_ci _ isCI_rule_pe1 s t hst
    · exact research_ci _ isCI_rule_pe2 s t hst
    · exact research_ci _ isCI_rule_pe3 s t hst
    · exact absurd hci (by decide)

theorem c7_case_insensitive_rules_witness :
    research rule_xss2.rex (str "JAVASCRIPT:") =
      research rule_xss2.rex (str "javascript:") :=
  c7_case_insensitive_rules "Cross-Site Scripting (XSS)" XSS_PATTERNS
    (by simp [get_all_patterns]) rule_xss2 (by simp [XSS_PATTERNS])
    (by decide) (str "JAVASCRIPT:") (str "javascript:") (by decide)

/-- C7 counterexample: the port-scan rule `SYN.*scan.*detected` is in
the catalog, has no capture group (it is not IP-capturing) and is not a
directory-traversal rule, yet it matches `SYN scan detected` and fails
on the case variant `SYN SCAN detected` — so not every textual rule
outside the exempted families is case-insensitive. -/
theorem c7_counterexample :
    ("Port Scanning", PORT_SCAN_PATTERNS) ∈ get_all_patterns ∧
    rule_ps1 ∈ PORT_SCAN_PATTERNS ∧
    hasGroup rule_ps1.rex = false ∧
    research rule_ps1.rex (str "SYN scan detected") = true ∧
    research rule_ps1.rex (str "SYN SCAN detected") = false ∧
    lcL (str "SYN scan detected") = lcL (str "SYN SCAN detected") := by
  refine ⟨by simp [get_all_patterns], by simp [PORT_SCAN_PATTERNS], by decide,
    by decide, by decide, by decide⟩
